import Mathlib

/-!
Verification of the cachify caching library (function-result memoization with
an in-memory and a Redis-compatible backend).

The development shallowly embeds the relevant Python modules:

* `caching/storage/memory_storage.py` — `MemoryStorage.get` / `MemoryStorage.set`;
* `caching/storage/redis_storage.py` — `RedisStorage` key construction,
  serialization, error policy, `set` / `get` / `aget`;
* `caching/utils/arguments.py` — `iter_arguments` and `create_cache_key`,
  together with a model of `inspect.Signature.bind_partial` / `apply_defaults`
  from the CPython standard library (the binding semantics those functions
  rely on);
* `cachify/utils/locks.py` with the per-key lock discipline of the
  memoization orchestrator (modelled from the specification, the orchestrator
  module itself being absent from the sources at hand).

Python values are modelled by the inductive type `PyVal`; `pickle.dumps` is
modelled as a total injective encoding that fails exactly on values containing
an unpicklable object (constructor `PyVal.bad`, carrying the type name of the
offending object), with the serialized form of a cache entry kept as the entry
itself (pickling round-trips). Wall-clock time and TTLs (Python `int | float`)
are modelled by the rationals; Python `int(x)` is truncation toward zero.
Exceptions are modelled with `Except String`; the raised message string is the
message built at the raise site. Logging is modelled by returning the list of
emitted log lines.
-/

/-! ## Python values and the pickle model -/

/-- A Python runtime value, as far as the caching layer observes it: opaque
picklable scalars (`atom`), strings, tuples, dicts with string keys (the only
dicts the code builds are keyword-argument dicts), and `bad ty` — an object of
type named `ty` that `pickle.dumps` cannot serialize. -/
inductive PyVal where
  | atom (n : Nat)
  | pstr (s : String)
  | bad (typeName : String)
  | tup (xs : List PyVal)
  | dict (xs : List (String × PyVal))

/-- The Python type name of a value, as `type(v).__name__` renders it. -/
def PyVal.typeName : PyVal → String
  | .atom _ => "int"
  | .pstr _ => "str"
  | .bad t => t
  | .tup _ => "tuple"
  | .dict _ => "dict"

mutual

/-- The type name of the first unpicklable object inside a value, if any:
`pickle.dumps` succeeds on the value iff this is `none`. -/
def firstBad : PyVal → Option String
  | .atom _ => none
  | .pstr _ => none
  | .bad t => some t
  | .tup xs => firstBadList xs
  | .dict xs => firstBadPairs xs

def firstBadList : List PyVal → Option String
  | [] => none
  | x :: xs => (firstBad x).orElse fun _ => firstBadList xs

def firstBadPairs : List (String × PyVal) → Option String
  | [] => none
  | (_, v) :: xs => (firstBad v).orElse fun _ => firstBadPairs xs

end

/-- Whether `pickle.dumps` succeeds on the value. -/
def pickleOk (v : PyVal) : Bool := (firstBad v).isNone

mutual

/-- An injective byte-level encoding standing for the canonical `pickle`
serialization of a picklable value (the concrete bytes of the real wire format
are irrelevant to the properties proved here; only determinism and injectivity
on the normalized structure matter). -/
def pyEncode : PyVal → List Nat
  | .atom n => [0, n]
  | .pstr s => 1 :: s.length :: (s.data.map Char.toNat)
  | .bad _ => [2]
  | .tup xs => 3 :: pyEncodeList xs ++ [7]
  | .dict xs => 4 :: pyEncodePairs xs ++ [7]

def pyEncodeList : List PyVal → List Nat
  | [] => []
  | x :: xs => 5 :: pyEncode x ++ pyEncodeList xs

def pyEncodePairs : List (String × PyVal) → List Nat
  | [] => []
  | (k, v) :: xs => 6 :: pyEncode (.pstr k) ++ pyEncode v ++ pyEncodePairs xs

end

/-- Hex rendering of the digest; stands for
`hashlib.blake2b(payload, digest_size=16).hexdigest()`. Only determinism of
the digest is used by the claims, so the digest is modelled as an injective
rendering of the payload. -/
def blakeHexdigest (payload : List Nat) : String :=
  String.intercalate "." (payload.map toString)

/-- From `caching/utils/arguments.py`, `_cache_key_fingerprint`:
`pickle.dumps` the value and hash the bytes. Raises (models `TypeError` from
`pickle.dumps`) iff the value contains an unpicklable object. -/
def cache_key_fingerprint (value : PyVal) : Except String String :=
  match firstBad value with
  | some ty => .error ("cannot pickle " ++ ty ++ " object")
  | none => .ok (blakeHexdigest (pyEncode value))

/-! ## Cache entries (modelled from the spec)

Modelled from the spec: the `CacheEntry` base class lives in
`caching/types.py`, which is not among the sources at hand; sections 3 and 4.2
of the specification define it as the triple (result, ttl, created_at), with
`created_at` the wall-clock time at construction and
`is_expired()` true iff `ttl` is set and `now - created_at > ttl`. -/

/-- Modelled from the spec: a cache entry — result value, optional TTL and
creation timestamp (`caching/types.py` is not among the sources at hand). -/
structure CacheEntry where
  result : PyVal
  ttl : Option ℚ
  created_at : ℚ

/-- Modelled from the spec: `is_expired()` reads the wall clock at call time;
the clock reading is the explicit argument `now`. True iff `ttl` is set and
`now - created_at > ttl`. -/
def CacheEntry.is_expired (e : CacheEntry) (now : ℚ) : Bool :=
  match e.ttl with
  | none => false
  | some t => decide (now - e.created_at > t)

/-- `MemoryCacheEntry(CacheEntry)` from `caching/storage/memory_storage.py`. -/
abbrev MemoryCacheEntry := CacheEntry

/-- `RedisCacheEntry(CacheEntry)` from `caching/storage/redis_storage.py`
(its `time` override returns the same wall clock). -/
abbrev RedisCacheEntry := CacheEntry

/-! ## Memory storage (`caching/storage/memory_storage.py`) -/

/-- The process-wide mapping `MemoryStorage._CACHE`, keyed by
`(function_id, cache_key)`; an association list read through `List.lookup`
(insertion shadows, as assignment to a dict key overwrites). -/
abbrev MemStore := List ((String × String) × MemoryCacheEntry)

/-- `MemoryStorage.set`: `cls._CACHE[function_id, cache_key] =
MemoryCacheEntry(result, ttl)`; `now` is the wall clock at construction
time of the entry. -/
def MemoryStorage.set (cache : MemStore) (function_id cache_key : String)
    (result : PyVal) (ttl : Option ℚ) (now : ℚ) : MemStore :=
  ((function_id, cache_key), ⟨result, ttl, now⟩) :: cache

/-- `MemoryStorage.get`: returns `None` on `skip_cache`, otherwise looks the
entry up and returns it unless expired. The method body contains no write to
`_CACHE`, so the store is returned unchanged; a `MemoryCacheEntry` instance is
always truthy, hence `entry := cls._CACHE.get(...)` tests presence. -/
def MemoryStorage.get (cache : MemStore) (function_id cache_key : String)
    (skip_cache : Bool) (now : ℚ) : Option MemoryCacheEntry × MemStore :=
  if skip_cache then (none, cache)
  else
    match cache.lookup (function_id, cache_key) with
    | some entry => if entry.is_expired now then (none, cache) else (some entry, cache)
    | none => (none, cache)

/-! ## Claims C1 and C2 -/

/-- C1: for every memory-backend state, `MemoryStorage.get(function_id,
cache_key, skip_cache)` returns absent if `skip_cache` is true, or if no entry
is stored under the key, or if the stored entry is expired; otherwise it
returns exactly the stored entry; and the lookup never modifies the store. -/
theorem claim_C1_memory_get (cache : MemStore) (fid ck : String) (skip : Bool) (now : ℚ) :
    (MemoryStorage.get cache fid ck skip now).2 = cache ∧
    ((MemoryStorage.get cache fid ck skip now).1 = none ↔
      skip = true ∨ cache.lookup (fid, ck) = none ∨
        ∃ e, cache.lookup (fid, ck) = some e ∧ e.is_expired now = true) ∧
    (∀ e, (MemoryStorage.get cache fid ck skip now).1 = some e ↔
      skip = false ∧ cache.lookup (fid, ck) = some e ∧ e.is_expired now = false) := by
  cases skip with
  | true => simp [MemoryStorage.get]
  | false =>
    cases hl : cache.lookup (fid, ck) with
    | none => simp [MemoryStorage.get, hl]
    | some e =>
      cases hx : e.is_expired now with
      | true => simp [MemoryStorage.get, hl, hx]
      | false =>
        refine ⟨by simp [MemoryStorage.get, hl, hx], by simp [MemoryStorage.get, hl, hx],
          fun e' => ⟨fun h => ?_, fun h2 => ?_⟩⟩
        · simp only [MemoryStorage.get, hl, hx, Bool.false_eq_true, if_false] at h
          cases h
          exact ⟨rfl, rfl, hx⟩
        · obtain ⟨-, he, -⟩ := h2
          cases he
          simp [MemoryStorage.get, hl, hx]

/-- C2: an entry is expired at wall-clock time `now` iff its `ttl` is set and
`now - created_at > ttl`; an entry with `ttl = None` never expires. -/
theorem claim_C2_is_expired (e : CacheEntry) (now : ℚ) :
    (e.is_expired now = true ↔ ∃ t, e.ttl = some t ∧ now - e.created_at > t) ∧
    (e.ttl = none → ∀ now2 : ℚ, e.is_expired now2 = false) := by
  obtain ⟨r, ttl, c⟩ := e
  cases ttl with
  | none => simp [CacheEntry.is_expired]
  | some t => simp [CacheEntry.is_expired]

/-! ## Redis storage (`caching/storage/redis_storage.py`) -/

/-- Python `int(q)` on a numeric value: truncation toward zero. -/
def pyInt (q : ℚ) : ℤ := q.num.tdiv q.den

/-- Modelled from the spec: the configuration object returned by
`get_redis_config()` (`caching/backends/redis_config.py` is not among the
sources at hand) — a key prefix, the presence of a registered sync resp.
async client, and the error policy string. The configuration is passed to
each operation explicitly, standing for the `get_redis_config()` read. -/
structure RedisConfig where
  key_prefix : String
  sync_client : Bool
  async_client : Bool
  on_error : String

/-- The remote store contents: Redis key to (serialized entry, remote TTL in
whole time units as passed to SETEX, `none` meaning a plain SET with no
expiry). Serialized bytes are modelled by the entry itself, pickling being a
round trip. An association list read through `List.lookup`. -/
abbrev RStore := List (String × (RedisCacheEntry × Option ℤ))

/-- `RedisStorage._make_key`: the string `"{prefix}:{function_id}:{cache_key}"`. -/
def RedisStorage._make_key (cfg : RedisConfig) (function_id cache_key : String) : String :=
  cfg.key_prefix ++ ":" ++ function_id ++ ":" ++ cache_key

/-- `RedisStorage._serialize`: `pickle.dumps(entry)`, re-raised as a
`TypeError` naming `type(entry.result).__name__` when pickling fails. -/
def RedisStorage._serialize (entry : RedisCacheEntry) : Except String RedisCacheEntry :=
  match firstBad entry.result with
  | none => .ok entry
  | some _ => .error ("Failed to serialize cache entry. Object of type " ++
      entry.result.typeName ++ " cannot be pickled. Ensure the cached result is serializable.")

/-- `RedisStorage._require_sync_client`: raise if no sync client configured. -/
def RedisStorage._require_sync_client (cfg : RedisConfig) : Except String Unit :=
  if cfg.sync_client then .ok () else
    .error ("Redis sync client not configured. " ++
      "Provide sync_client in setup_redis_config() to use @redis_cache on sync functions.")

/-- `RedisStorage._require_async_client`: raise if no async client configured. -/
def RedisStorage._require_async_client (cfg : RedisConfig) : Except String Unit :=
  if cfg.async_client then .ok () else
    .error ("Redis async client not configured. " ++
      "Provide async_client in setup_redis_config() to use @redis_cache on async functions.")

/-- `RedisStorage._handle_error`: under the `"raise"` policy re-raise the
original exception, otherwise swallow it and log one line at debug level. -/
def RedisStorage._handle_error (cfg : RedisConfig) (exc operation : String) :
    Except String (List String) :=
  if cfg.on_error = "raise" then .error exc
  else .ok ["Redis " ++ operation ++ " error (silent mode): " ++ exc]

/-- `RedisStorage._prepare_set`: build the Redis key, the fresh entry (created
at wall-clock time `now`), its serialization, and the remote expiry
`int(ttl) + 1` (or no expiry when `ttl` is `None`). -/
def RedisStorage._prepare_set (cfg : RedisConfig) (now : ℚ) (function_id cache_key : String)
    (result : PyVal) (ttl : Option ℚ) : Except String (String × RedisCacheEntry × Option ℤ) :=
  let key := RedisStorage._make_key cfg function_id cache_key
  let entry : RedisCacheEntry := ⟨result, ttl, now⟩
  match RedisStorage._serialize entry with
  | .error e => .error e
  | .ok data => .ok (key, data, ttl.map fun t => pyInt t + 1)

/-- `RedisStorage.set`. `netErr = some exc` models the remote client raising
`exc` on the SET/SETEX network call; `none` models a successful round trip.
The triple returned is (raised exception or unit, resulting remote store,
log lines). -/
def RedisStorage.set (cfg : RedisConfig) (store : RStore) (netErr : Option String)
    (now : ℚ) (function_id cache_key : String) (result : PyVal) (ttl : Option ℚ) :
    Except String Unit × RStore × List String :=
  match RedisStorage._require_sync_client cfg with
  | .error e => (.error e, store, [])
  | .ok _ =>
    match RedisStorage._prepare_set cfg now function_id cache_key result ttl with
    | .error e => (.error e, store, [])
    | .ok (key, data, expiry) =>
      match netErr with
      | some exc =>
        match RedisStorage._handle_error cfg exc "set" with
        | .error e => (.error e, store, [])
        | .ok logs => (.ok (), store, logs)
      | none => (.ok (), (key, (data, expiry)) :: store, [])

/-- `RedisStorage.get`. `netErr = some exc` models the remote client raising
`exc` on the GET network call. Returns (the raised exception, or the entry
found — `none` being a miss), and the log lines. -/
def RedisStorage.get (cfg : RedisConfig) (store : RStore) (netErr : Option String)
    (now : ℚ) (function_id cache_key : String) (skip_cache : Bool) :
    Except String (Option RedisCacheEntry) × List String :=
  if skip_cache then (.ok none, [])
  else
    match RedisStorage._require_sync_client cfg with
    | .error e => (.error e, [])
    | .ok _ =>
      let key := RedisStorage._make_key cfg function_id cache_key
      match netErr with
      | some exc =>
        match RedisStorage._handle_error cfg exc "get" with
        | .error e => (.error e, [])
        | .ok logs => (.ok none, logs)
      | none =>
        match store.lookup key with
        | none => (.ok none, [])
        | some (entry, _) =>
          if entry.is_expired now then (.ok none, []) else (.ok (some entry), [])

/-- `RedisStorage.aget`: the async variant — identical to `get` except that it
requires the async client. -/
def RedisStorage.aget (cfg : RedisConfig) (store : RStore) (netErr : Option String)
    (now : ℚ) (function_id cache_key : String) (skip_cache : Bool) :
    Except String (Option RedisCacheEntry) × List String :=
  if skip_cache then (.ok none, [])
  else
    match RedisStorage._require_async_client cfg with
    | .error e => (.error e, [])
    | .ok _ =>
      let key := RedisStorage._make_key cfg function_id cache_key
      match netErr with
      | some exc =>
        match RedisStorage._handle_error cfg exc "aget" with
        | .error e => (.error e, [])
        | .ok logs => (.ok none, logs)
      | none =>
        match store.lookup key with
        | none => (.ok none, [])
        | some (entry, _) =>
          if entry.is_expired now then (.ok none, []) else (.ok (some entry), [])

/-! ## Claims C3, C6, C7, C10 -/

/-- Whether `needle` occurs as a contiguous run inside `hay` (substring test
on character lists, used to state that an error message does or does not name
a type). -/
def hasSub (hay needle : List Char) : Bool :=
  match hay with
  | [] => needle.isEmpty
  | _ :: t => needle.isPrefixOf hay || hasSub t needle

/-- The rational 5/2, built with explicit numerator and denominator: a
non-integral TTL value. -/
def fiveHalves : ℚ := ⟨5, 2, by decide, by decide⟩

theorem fiveHalves_eq_div : fiveHalves = (5 : ℚ) / 2 := by
  unfold fiveHalves
  rw [Rat.mk'_eq_divInt, Rat.divInt_eq_div]
  norm_num

/-- C3, counterexample to the claim as stated: with `ttl = 5/2` the remote
write stores the integral expiry `int(5/2) + 1 = 3`, and `3` is not equal to
`ttl + 1 = 7/2`, so the remote TTL is not `ttl + 1` for every call. -/
theorem claim_C3_counterexample :
    (RedisStorage.set ⟨"p", true, true, "raise"⟩ [] none 0 "f" "k" (.atom 0)
        (some fiveHalves)).2.1 =
      [("p" ++ ":" ++ "f" ++ ":" ++ "k",
        ((⟨.atom 0, some fiveHalves, 0⟩ : RedisCacheEntry), some 3))] ∧
    ¬ ((3 : ℚ) = fiveHalves + 1) := by
  constructor
  · rfl
  · rw [fiveHalves_eq_div]
    norm_num

/-- C3 (amended): a successful `RedisStorage.set` writes the serialized fresh
entry to the remote store under the key `"{prefix}:{function_id}:{cache_key}"`;
with a TTL it uses set-with-expiry at remote TTL `int(ttl) + 1` (the TTL
truncated toward zero, plus one — equal to `ttl + 1` exactly when `ttl` is an
integer), and with `ttl = None` a plain set with no expiry. -/
theorem claim_C3_redis_set (cfg : RedisConfig) (store : RStore) (now : ℚ)
    (fid ck : String) (result : PyVal) (ttl : Option ℚ)
    (hc : cfg.sync_client = true) (hok : pickleOk result = true) :
    RedisStorage.set cfg store none now fid ck result ttl =
      (.ok (), (cfg.key_prefix ++ ":" ++ fid ++ ":" ++ ck,
        ((⟨result, ttl, now⟩ : RedisCacheEntry), ttl.map fun t => pyInt t + 1)) :: store,
        []) := by
  have hser : firstBad result = none := by
    unfold pickleOk at hok
    cases h : firstBad result with
    | none => rfl
    | some t => rw [h] at hok; simp [Option.isNone] at hok
  simp [RedisStorage.set, RedisStorage._require_sync_client, hc,
    RedisStorage._prepare_set, RedisStorage._serialize, hser, RedisStorage._make_key]

/-- C3 witness: the amended theorem applied at a concrete configured call
with an integral TTL. -/
theorem claim_C3_redis_set_witness :
    RedisStorage.set ⟨"p", true, true, "raise"⟩ [] none 0 "f" "k" (.atom 1) (some 1) =
      (.ok (), ("p" ++ ":" ++ "f" ++ ":" ++ "k",
        ((⟨.atom 1, some 1, 0⟩ : RedisCacheEntry), (some (1 : ℚ)).map fun t => pyInt t + 1)) :: [],
        []) :=
  claim_C3_redis_set ⟨"p", true, true, "raise"⟩ [] 0 "f" "k" (.atom 1) (some 1) rfl rfl

/-- C6: a remote-store failure during `RedisStorage.get` propagates the
original exception when the error policy is `"raise"`, and under any other
policy is swallowed: `get` returns a cache miss and logs one debug line. -/
theorem claim_C6_get_error_policy (cfg : RedisConfig) (store : RStore) (exc : String)
    (now : ℚ) (fid ck : String) (hc : cfg.sync_client = true) :
    (cfg.on_error = "raise" →
      RedisStorage.get cfg store (some exc) now fid ck false = (.error exc, [])) ∧
    (cfg.on_error ≠ "raise" →
      RedisStorage.get cfg store (some exc) now fid ck false =
        (.ok none, ["Redis " ++ "get" ++ " error (silent mode): " ++ exc])) := by
  constructor
  · intro hp
    simp [RedisStorage.get, RedisStorage._require_sync_client, hc,
      RedisStorage._handle_error, hp]
  · intro hp
    simp [RedisStorage.get, RedisStorage._require_sync_client, hc,
      RedisStorage._handle_error, hp]

/-- C6 witness: the theorem applied under both policies at a concrete failing
remote call. -/
theorem claim_C6_get_error_policy_witness :
    RedisStorage.get ⟨"p", true, true, "raise"⟩ [] (some "boom") 0 "f" "k" false =
      (.error "boom", []) ∧
    RedisStorage.get ⟨"p", true, true, "silent"⟩ [] (some "boom") 0 "f" "k" false =
      (.ok none, ["Redis " ++ "get" ++ " error (silent mode): " ++ "boom"]) :=
  ⟨(claim_C6_get_error_policy ⟨"p", true, true, "raise"⟩ [] "boom" 0 "f" "k" rfl).1 rfl,
   (claim_C6_get_error_policy ⟨"p", true, true, "silent"⟩ [] "boom" 0 "f" "k" rfl).2
     (by decide)⟩

/-- C7, counterexample to the claim as stated: for a result that is a tuple
holding an unpicklable object of type `Lock`, the raised message names the
type of the result object (`tuple`) and does not name the unpicklable type
(`Lock`) at all. -/
theorem claim_C7_counterexample :
    (RedisStorage.set ⟨"p", true, true, "silent"⟩ [] none 0 "f" "k"
        (.tup [.bad "Lock"]) none).1 =
      .error ("Failed to serialize cache entry. Object of type " ++ "tuple" ++
        " cannot be pickled. Ensure the cached result is serializable.") ∧
    hasSub ("Failed to serialize cache entry. Object of type " ++ "tuple" ++
        " cannot be pickled. Ensure the cached result is serializable.").data
      "Lock".data = false := by
  constructor
  · rfl
  · decide

/-- C7 (amended): when the result cannot be pickled, `RedisStorage.set`
raises a serialization error naming the type of the result object — the
unpicklable type itself whenever the result is the unpicklable object, the
type of the enclosing container otherwise — regardless of the configured
error policy and of the state of the network, and nothing is written to the
remote store. -/
theorem claim_C7_set_serialization_error (cfg : RedisConfig) (store : RStore)
    (netErr : Option String) (now : ℚ) (fid ck : String) (result : PyVal) (ttl : Option ℚ)
    (hc : cfg.sync_client = true) (hbad : pickleOk result = false) :
    RedisStorage.set cfg store netErr now fid ck result ttl =
      (.error ("Failed to serialize cache entry. Object of type " ++ result.typeName ++
        " cannot be pickled. Ensure the cached result is serializable."), store, []) := by
  have hser : ∃ t, firstBad result = some t := by
    unfold pickleOk at hbad
    cases h : firstBad result with
    | none => rw [h] at hbad; simp [Option.isNone] at hbad
    | some t => exact ⟨t, rfl⟩
  obtain ⟨t, ht⟩ := hser
  simp [RedisStorage.set, RedisStorage._require_sync_client, hc,
    RedisStorage._prepare_set, RedisStorage._serialize, ht]

/-- C7 witness: the amended theorem applied at a concrete call whose result
is directly an unpicklable object, under the silent error policy. -/
theorem claim_C7_set_serialization_error_witness :
    RedisStorage.set ⟨"p", true, true, "silent"⟩ [] none 0 "f" "k" (.bad "Lock") none =
      (.error ("Failed to serialize cache entry. Object of type " ++
        (PyVal.bad "Lock").typeName ++
        " cannot be pickled. Ensure the cached result is serializable."), [], []) :=
  claim_C7_set_serialization_error ⟨"p", true, true, "silent"⟩ [] none 0 "f" "k"
    (.bad "Lock") none rfl rfl

/-- C10: `RedisStorage.get` and `RedisStorage.aget` with `skip_cache = true`
return a miss immediately, for every configuration and remote state — in
particular no configuration error is raised even when no sync (resp. async)
client has been registered. -/
theorem claim_C10_skip_cache_short_circuit (cfg : RedisConfig) (store : RStore)
    (netErr : Option String) (now : ℚ) (fid ck : String) :
    RedisStorage.get cfg store netErr now fid ck true = (.ok none, []) ∧
    RedisStorage.aget cfg store netErr now fid ck true = (.ok none, []) :=
  ⟨rfl, rfl⟩

/-! ## Cache-key derivation (`caching/utils/arguments.py`)

The functions below first model the argument-binding semantics the source
relies on — `inspect.Signature.bind_partial` followed by
`BoundArguments.apply_defaults` from the CPython standard library — and then
translate `iter_arguments` and `create_cache_key` themselves. -/

/-- The kind of a declared parameter (`inspect.Parameter.kind`). -/
inductive ParamKind where
  | pos_only
  | pos_or_kw
  | var_pos
  | kw_only
  | var_kw
deriving DecidableEq

/-- A declared parameter: name, kind, optional default value. -/
structure Param where
  name : String
  kind : ParamKind
  default : Option PyVal

/-- Whether the keyword-argument dict has a binding for `name`
(`name in kwargs`). -/
def hasKw (name : String) (kwargs : List (String × PyVal)) : Bool :=
  kwargs.any fun p => p.1 == name

/-- `kwargs.pop(name)`: the bound value and the remaining dict with its
insertion order preserved, or `none` when the name is absent. -/
def popKw (name : String) : List (String × PyVal) → Option (PyVal × List (String × PyVal))
  | [] => none
  | (k, v) :: rest =>
    if k == name then some (v, rest)
    else
      match popKw name rest with
      | none => none
      | some (v2, rest2) => some (v2, (k, v) :: rest2)

/-- The positional phase of CPython `Signature._bind` (with `partial=True`):
consume the positional arguments against the leading parameters in order.
Returns the positionally bound (name, value) pairs, in parameter order, and
the parameters handed to the keyword phase (`parameters_ex` followed by the
rest of the parameter iterator). A var-positional parameter absorbs every
remaining positional argument as one tuple; when the positional arguments run
out at a var-positional parameter, that parameter is skipped. Raises on a
surplus positional argument, on a positional-only parameter also passed by
keyword, and on a parameter both filled positionally and passed by keyword. -/
def bindPos : List Param → List PyVal → List (String × PyVal) →
    Except String (List (String × PyVal) × List Param)
  | [], [], _ => .ok ([], [])
  | p :: ps, [], kwargs =>
    if p.kind = .var_pos then .ok ([], ps)
    else if p.kind = .pos_only && hasKw p.name kwargs then
      .error (p.name ++ " parameter is positional only, but was passed as a keyword")
    else .ok ([], p :: ps)
  | [], _ :: _, _ => .error "too many positional arguments"
  | p :: ps, a :: rest, kwargs =>
    match p.kind with
    | .kw_only => .error "too many positional arguments"
    | .var_kw => .error "too many positional arguments"
    | .var_pos => .ok ([(p.name, .tup (a :: rest))], ps)
    | .pos_only =>
      match bindPos ps rest kwargs with
      | .error e => .error e
      | .ok (bound, left) => .ok ((p.name, a) :: bound, left)
    | .pos_or_kw =>
      if hasKw p.name kwargs then .error ("multiple values for argument " ++ p.name)
      else
        match bindPos ps rest kwargs with
        | .error e => .error e
        | .ok (bound, left) => .ok ((p.name, a) :: bound, left)

/-- The keyword phase of CPython `Signature._bind` (with `partial=True`):
walk the remaining parameters in order, popping the matching keyword argument
for each; memorize a var-keyword parameter, skip a var-positional one, and
leave a parameter with no matching keyword argument unbound (partial
binding). Returns the keyword-bound pairs in parameter order, the memorized
var-keyword parameter name, and the unmatched keyword arguments in their
original order. -/
def bindKw : List Param → List (String × PyVal) →
    Except String (List (String × PyVal) × Option String × List (String × PyVal))
  | [], kwargs => .ok ([], none, kwargs)
  | p :: ps, kwargs =>
    match p.kind with
    | .var_kw =>
      match bindKw ps kwargs with
      | .error e => .error e
      | .ok (bound, kp, left) =>
        .ok (bound, (match kp with | some k => some k | none => some p.name), left)
    | .var_pos => bindKw ps kwargs
    | _ =>
      match popKw p.name kwargs with
      | none => bindKw ps kwargs
      | some (v, rest) =>
        if p.kind = .pos_only then
          .error (p.name ++ " parameter is positional only, but was passed as a keyword")
        else
          match bindKw ps rest with
          | .error e => .error e
          | .ok (bound, kp, left) => .ok ((p.name, v) :: bound, kp, left)

/-- `function_signature.bind_partial(*args, **kwargs).arguments`: the ordered
mapping from bound parameter names to values — positionally bound parameters
first, then keyword-bound ones, both in declaration order, then the
var-keyword parameter holding the dict of unmatched keyword arguments (a
var-keyword parameter is declared last, so the mapping is in declaration
order). Raises on an unexpected keyword argument when no var-keyword
parameter exists. -/
def bind_partial (sig : List Param) (args : List PyVal) (kwargs : List (String × PyVal)) :
    Except String (List (String × PyVal)) :=
  match bindPos sig args kwargs with
  | .error e => .error e
  | .ok (posBound, leftParams) =>
    match bindKw leftParams kwargs with
    | .error e => .error e
    | .ok (kwBound, kwParam, leftover) =>
      if leftover.isEmpty then .ok (posBound ++ kwBound)
      else
        match kwParam with
        | some name => .ok (posBound ++ kwBound ++ [(name, .dict leftover)])
        | none => .error "got an unexpected keyword argument"

/-- `BoundArguments.apply_defaults()`: rebuild the mapping in full signature
order, filling the declared default for an unbound defaulted parameter, the
empty tuple for an unbound var-positional parameter and the empty dict for an
unbound var-keyword parameter; an unbound parameter with no default stays
absent (partial binding). -/
def apply_defaults (sig : List Param) (arguments : List (String × PyVal)) :
    List (String × PyVal) :=
  sig.filterMap fun p =>
    match arguments.lookup p.name with
    | some v => some (p.name, v)
    | none =>
      match p.default with
      | some d => some (p.name, d)
      | none =>
        match p.kind with
        | .var_pos => some (p.name, .tup [])
        | .var_kw => some (p.name, .dict [])
        | _ => none

/-- `function_signature.parameters[name]`. -/
def paramOf (sig : List Param) (name : String) : Option Param :=
  sig.find? fun p => p.name == name

/-- The loop body of `iter_arguments`: what one bound (name, value) pair
contributes to the yielded sequence — nothing when the name is ignored, the
individual elements for a var-positional parameter, the (name, value) items
for a var-keyword parameter, one (name, value) pair otherwise. A yielded
Python 2-tuple `(name, value)` is the value `PyVal.tup [.pstr name, value]`.
The fallback arms (name not declared, a var-positional value that is not a
tuple, a var-keyword value that is not a dict) are unreachable on the output
of binding. -/
def iterArgumentsItem (function_signature : List Param) (ignore_fields : List String)
    (nv : String × PyVal) : List PyVal :=
  if ignore_fields.contains nv.1 then []
  else
    match paramOf function_signature nv.1 with
    | none => []
    | some p =>
      match p.kind with
      | .var_pos =>
        match nv.2 with
        | .tup xs => xs
        | _ => []
      | .var_kw =>
        match nv.2 with
        | .dict xs => xs.map fun kv => .tup [.pstr kv.1, kv.2]
        | _ => []
      | _ => [.tup [.pstr nv.1, nv.2]]

/-- `iter_arguments` from `caching/utils/arguments.py`: bind the call
(partially) against the signature, apply defaults, then yield the normalized
item sequence in order. -/
def iter_arguments (function_signature : List Param) (args : List PyVal)
    (kwargs : List (String × PyVal)) (ignore_fields : List String) :
    Except String (List PyVal) :=
  match bind_partial function_signature args kwargs with
  | .error e => .error e
  | .ok bound =>
    .ok ((apply_defaults function_signature bound).flatMap
      (iterArgumentsItem function_signature ignore_fields))

/-- `create_cache_key` from `caching/utils/arguments.py`: with no user key
function, fingerprint the tuple of the `iter_arguments` items; with one,
fingerprint its returned value, a pickling `TypeError` becoming the fixed
`ValueError` about hashable cache keys. -/
def create_cache_key (function_signature : List Param)
    (cache_key_func : Option (List PyVal → List (String × PyVal) → PyVal))
    (ignore_fields : List String) (args : List PyVal) (kwargs : List (String × PyVal)) :
    Except String String :=
  match cache_key_func with
  | none =>
    match iter_arguments function_signature args kwargs ignore_fields with
    | .error e => .error e
    | .ok items => cache_key_fingerprint (.tup items)
  | some f =>
    match cache_key_fingerprint (f args kwargs) with
    | .ok s => .ok s
    | .error _ =>
      .error ("Cache key function must return a hashable cache key - " ++
        "be careful with mutable types (list, dict, set) and non built-in types")

/-! ## Claims C4, C5, C8 -/

/-- The hashed sequence as the spec describes it, taken from the
bound-with-defaults arguments of the call: parameters named in the ignore set
are excluded; a variadic positional parameter is expanded into its individual
elements in order; a variadic keyword parameter is expanded into individual
(name, value) pairs; every other parameter contributes one (name, value)
pair. Written from the spec sentences, for comparison with the sequence the
source actually hashes. -/
def spec_normalized_sequence (sig : List Param) (boundWithDefaults : List (String × PyVal))
    (ignore : List String) : List PyVal :=
  boundWithDefaults.flatMap fun nv =>
    if ignore.contains nv.1 then []
    else
      match paramOf sig nv.1 with
      | none => []
      | some p =>
        match p.kind with
        | .var_pos =>
          match nv.2 with
          | .tup elems => elems
          | _ => []
        | .var_kw =>
          match nv.2 with
          | .dict items => items.map fun kv => .tup [.pstr kv.1, kv.2]
          | _ => []
        | _ => [.tup [.pstr nv.1, nv.2]]

theorem create_cache_key_default_eq (sig : List Param) (ignore : List String)
    (args : List PyVal) (kwargs : List (String × PyVal)) (bound : List (String × PyVal))
    (hb : bind_partial sig args kwargs = .ok bound) :
    create_cache_key sig none ignore args kwargs =
      cache_key_fingerprint (.tup ((apply_defaults sig bound).flatMap
        (iterArgumentsItem sig ignore))) := by
  unfold create_cache_key iter_arguments
  rw [hb]

/-- C4: on the default path (no user key function) the cache key is the
fingerprint of exactly the spec-described ordered sequence: arguments bound
against the declared parameters with defaults applied, ignored parameters
excluded, variadic positional parameters expanded elementwise in order,
variadic keyword parameters expanded into (name, value) pairs, and every
other parameter contributing a (name, value) pair. -/
theorem claim_C4_default_key_path (sig : List Param) (args : List PyVal)
    (kwargs : List (String × PyVal)) (ignore : List String)
    (bound : List (String × PyVal)) (hb : bind_partial sig args kwargs = .ok bound) :
    create_cache_key sig none ignore args kwargs =
      cache_key_fingerprint
        (.tup (spec_normalized_sequence sig (apply_defaults sig bound) ignore)) := by
  rw [create_cache_key_default_eq sig ignore args kwargs bound hb]
  rfl

/-- A sample signature: `def f(a, b=2, *args, c, **kwargs)`. -/
def sigSample : List Param :=
  [⟨"a", .pos_or_kw, none⟩, ⟨"b", .pos_or_kw, some (.atom 2)⟩, ⟨"args", .var_pos, none⟩,
   ⟨"c", .kw_only, none⟩, ⟨"kwargs", .var_kw, none⟩]

/-- C4 witness: the theorem applied to a concrete call of
`f(a, b=2, *args, c, **kwargs)` as `f(1, 9, 3, c=4, x=5)` with `b` ignored. -/
theorem claim_C4_default_key_path_witness :
    create_cache_key sigSample none ["b"] [.atom 1, .atom 9, .atom 3]
        [("c", .atom 4), ("x", .atom 5)] =
      cache_key_fingerprint (.tup (spec_normalized_sequence sigSample
        (apply_defaults sigSample
          [("a", .atom 1), ("b", .atom 9), ("args", .tup [.atom 3]),
           ("c", .atom 4), ("kwargs", .dict [("x", .atom 5)])]) ["b"])) :=
  claim_C4_default_key_path sigSample [.atom 1, .atom 9, .atom 3]
    [("c", .atom 4), ("x", .atom 5)] ["b"]
    [("a", .atom 1), ("b", .atom 9), ("args", .tup [.atom 3]),
     ("c", .atom 4), ("kwargs", .dict [("x", .atom 5)])] rfl

/-- Bound-argument mappings that agree except possibly at parameters named in
the ignore list: same parameter names in the same order, and equal values at
every name not ignored. -/
def agreeOffIgnored (ignore : List String) (xs ys : List (String × PyVal)) : Prop :=
  List.Forall₂ (fun a b => a.1 = b.1 ∧ (ignore.contains a.1 = false → a.2 = b.2)) xs ys

theorem flatMap_item_eq_of_agree (sig : List Param) (ignore : List String)
    (xs ys : List (String × PyVal)) (h : agreeOffIgnored ignore xs ys) :
    xs.flatMap (iterArgumentsItem sig ignore) = ys.flatMap (iterArgumentsItem sig ignore) := by
  induction h with
  | nil => rfl
  | @cons a b tx ty hab htl ih =>
    obtain ⟨hn, hv⟩ := hab
    simp only [List.flatMap_cons, ih]
    congr 1
    unfold iterArgumentsItem
    rw [← hn]
    cases hc : ignore.contains a.1 with
    | true => simp [hc]
    | false => rw [← hv hc]

/-- C5: two calls whose bound arguments differ only in the value of
parameters named in the ignore set produce identical cache keys on the
default key-derivation path. -/
theorem claim_C5_ignored_fields (sig : List Param) (ignore : List String)
    (args1 args2 : List PyVal) (kwargs1 kwargs2 : List (String × PyVal))
    (b1 b2 : List (String × PyVal))
    (h1 : bind_partial sig args1 kwargs1 = .ok b1)
    (h2 : bind_partial sig args2 kwargs2 = .ok b2)
    (hagree : agreeOffIgnored ignore (apply_defaults sig b1) (apply_defaults sig b2)) :
    create_cache_key sig none ignore args1 kwargs1 =
      create_cache_key sig none ignore args2 kwargs2 := by
  rw [create_cache_key_default_eq sig ignore args1 kwargs1 b1 h1,
    create_cache_key_default_eq sig ignore args2 kwargs2 b2 h2,
    flatMap_item_eq_of_agree sig ignore _ _ hagree]

/-- A sample signature `def g(x, token)` for the ignore-fields witness. -/
def sigToken : List Param := [⟨"x", .pos_or_kw, none⟩, ⟨"token", .pos_or_kw, none⟩]

/-- C5 witness: the theorem applied to two concrete calls of `g(x, token)`
differing only in the ignored parameter `token`. -/
theorem claim_C5_ignored_fields_witness :
    create_cache_key sigToken none ["token"] [.atom 1, .pstr "s1"] [] =
      create_cache_key sigToken none ["token"] [.atom 1, .pstr "s2"] [] :=
  claim_C5_ignored_fields sigToken ["token"] [.atom 1, .pstr "s1"] [.atom 1, .pstr "s2"] [] []
    [("x", .atom 1), ("token", .pstr "s1")] [("x", .atom 1), ("token", .pstr "s2")]
    rfl rfl
    (.cons ⟨rfl, fun _ => rfl⟩ (.cons ⟨rfl, fun h => nomatch h⟩ .nil))

/-- C8, counterexample to the claim as stated: a user key function returning
an unserializable value of type `Foo` makes `create_cache_key` raise the
fixed `ValueError` message, which does not name the offending type `Foo`. -/
theorem claim_C8_counterexample :
    create_cache_key [] (some fun _ _ => .bad "Foo") [] [] [] =
      .error ("Cache key function must return a hashable cache key - " ++
        "be careful with mutable types (list, dict, set) and non built-in types") ∧
    hasSub ("Cache key function must return a hashable cache key - " ++
      "be careful with mutable types (list, dict, set) and non built-in types").data
      "Foo".data = false :=
  ⟨rfl, by decide⟩

/-- C8 (amended): a user key function returning a value the canonical
serializer cannot handle makes `create_cache_key` fail with the
`InvalidCacheKey` error (`ValueError`) carrying a fixed message that warns
against unhashable and mutable return types but does not name the offending
type; a serializable returned value is serialized and hashed exactly as the
default path hashes its item tuple. -/
theorem claim_C8_user_key_function (sig : List Param) (ignore : List String)
    (args : List PyVal) (kwargs : List (String × PyVal))
    (f : List PyVal → List (String × PyVal) → PyVal) :
    (∀ ty, firstBad (f args kwargs) = some ty →
      create_cache_key sig (some f) ignore args kwargs =
        .error ("Cache key function must return a hashable cache key - " ++
          "be careful with mutable types (list, dict, set) and non built-in types")) ∧
    (firstBad (f args kwargs) = none →
      create_cache_key sig (some f) ignore args kwargs =
        .ok (blakeHexdigest (pyEncode (f args kwargs)))) := by
  constructor
  · intro ty h
    simp [create_cache_key, cache_key_fingerprint, h]
  · intro h
    simp [create_cache_key, cache_key_fingerprint, h]

/-! ## Per-key locks and single-flight (claim C9)

`cachify/utils/locks.py` declares the two process-wide lock registries:
`SYNC_LOCKS`, a `defaultdict(threading.Lock)`, and `ASYNC_LOCKS`, a
`defaultdict(asyncio.Lock)`. The orchestrator that acquires them around a
cache miss is modelled from the spec (sections 4.4 and 5): on a miss the
caller acquires the lock registered under its derived key in the registry of
its own path, computes, writes, and releases the lock on every exit path.
The model is a transition system over the joint state of the two registries
and the callers. -/

/-- The phase of one caller with respect to its (function, key) pair:
not yet missed, waiting to acquire the per-key lock, computing the wrapped
function under the lock, or done (returned or raised — the lock is released
on every exit path). -/
inductive Phase where
  | idle
  | waiting
  | computing
  | finished
deriving DecidableEq

/-- One caller: the derived lock-registry key it addresses, whether it runs
on the synchronous path (threads, `SYNC_LOCKS`) or the asynchronous path
(cooperative tasks, `ASYNC_LOCKS`), and its phase. -/
structure Caller where
  key : String
  sync : Bool
  phase : Phase

/-- The process-wide state: the two per-key lock registries of
`cachify/utils/locks.py` — modelled as total maps to the locked flag, a
`defaultdict` creating each lock lazily in the unlocked state — and the
callers. The registries are separate and a caller only ever touches the one
of its own path. -/
structure LockState where
  sync_locks : String → Bool
  async_locks : String → Bool
  callers : List Caller

/-- Whether a caller is currently computing on the given path and key. -/
def isComputingOn (sync : Bool) (k : String) (c : Caller) : Bool :=
  c.sync == sync && c.key == k && c.phase == Phase.computing

/-- How many callers are currently computing on the given path and key. -/
def computingCount (cs : List Caller) (sync : Bool) (k : String) : Nat :=
  cs.countP (isComputingOn sync k)

/-- Modelled from the spec: one step of the orchestrator lock discipline. A
caller misses and starts waiting on its key; a waiting caller acquires its
path's per-key lock only when that lock is free; a computing caller releases
the lock when it finishes, whether by returning or by raising. -/
inductive LockStep : LockState → LockState → Prop
  | miss (sl al : String → Bool) (pre post : List Caller) (k : String) (b : Bool) :
      LockStep ⟨sl, al, pre ++ ⟨k, b, .idle⟩ :: post⟩
        ⟨sl, al, pre ++ ⟨k, b, .waiting⟩ :: post⟩
  | acquire_sync (sl al : String → Bool) (pre post : List Caller) (k : String)
      (h : sl k = false) :
      LockStep ⟨sl, al, pre ++ ⟨k, true, .waiting⟩ :: post⟩
        ⟨fun k2 => if k2 = k then true else sl k2, al,
          pre ++ ⟨k, true, .computing⟩ :: post⟩
  | acquire_async (sl al : String → Bool) (pre post : List Caller) (k : String)
      (h : al k = false) :
      LockStep ⟨sl, al, pre ++ ⟨k, false, .waiting⟩ :: post⟩
        ⟨sl, fun k2 => if k2 = k then true else al k2,
          pre ++ ⟨k, false, .computing⟩ :: post⟩
  | release_sync (sl al : String → Bool) (pre post : List Caller) (k : String) :
      LockStep ⟨sl, al, pre ++ ⟨k, true, .computing⟩ :: post⟩
        ⟨fun k2 => if k2 = k then false else sl k2, al,
          pre ++ ⟨k, true, .finished⟩ :: post⟩
  | release_async (sl al : String → Bool) (pre post : List Caller) (k : String) :
      LockStep ⟨sl, al, pre ++ ⟨k, false, .computing⟩ :: post⟩
        ⟨sl, fun k2 => if k2 = k then false else al k2,
          pre ++ ⟨k, false, .finished⟩ :: post⟩

/-- The inductive invariant: on each path, the number of callers computing on
a key is bounded by that key's lock state in that path's registry. -/
def LockInv (s : LockState) : Prop :=
  ∀ k : String,
    computingCount s.callers true k ≤ (if s.sync_locks k then 1 else 0) ∧
    computingCount s.callers false k ≤ (if s.async_locks k then 1 else 0)

/-- A starting state: no lock held in either registry, every caller idle. -/
def InitialLocks (s : LockState) : Prop :=
  (∀ k, s.sync_locks k = false) ∧ (∀ k, s.async_locks k = false) ∧
    ∀ c ∈ s.callers, c.phase = Phase.idle

/-- The single-flight property: at most one caller computing per path and per
(function, key) pair. -/
def AtMostOneComputing (s : LockState) : Prop :=
  ∀ k : String, computingCount s.callers true k ≤ 1 ∧ computingCount s.callers false k ≤ 1

theorem initial_lockinv (s : LockState) (h : InitialLocks s) : LockInv s := by
  obtain ⟨hsl, hal, hidle⟩ := h
  intro k
  have hz : ∀ b, computingCount s.callers b k = 0 := by
    intro b
    refine List.countP_eq_zero.mpr fun c hc => ?_
    have := hidle c hc
    simp [isComputingOn, this]
  rw [hz true, hz false]
  exact ⟨Nat.zero_le _, Nat.zero_le _⟩

theorem countP_middle (p : Caller → Bool) (pre post : List Caller) (c : Caller) :
    (pre ++ c :: post).countP p =
      pre.countP p + post.countP p + (if p c then 1 else 0) := by
  rw [List.countP_append, List.countP_cons]
  omega

theorem midTerm_not_computing (sync : Bool) (k2 k : String) (b : Bool) (ph : Phase)
    (h : (ph == Phase.computing) = false) :
    (if isComputingOn sync k2 ⟨k, b, ph⟩ = true then (1 : Nat) else 0) = 0 := by
  simp [isComputingOn, h]

theorem midTerm_computing_same (k2 : String) (b : Bool) :
    (if isComputingOn b k2 ⟨k2, b, Phase.computing⟩ = true then (1 : Nat) else 0) = 1 := by
  simp [isComputingOn]

theorem midTerm_sync_on_async (k2 k : String) :
    (if isComputingOn false k2 ⟨k, true, Phase.computing⟩ = true then (1 : Nat) else 0) = 0 :=
  rfl

theorem midTerm_async_on_sync (k2 k : String) :
    (if isComputingOn true k2 ⟨k, false, Phase.computing⟩ = true then (1 : Nat) else 0) = 0 :=
  rfl

theorem midTerm_key_ne (sync : Bool) (k2 k : String) (b : Bool) (ph : Phase)
    (h : (k == k2) = false) :
    (if isComputingOn sync k2 ⟨k, b, ph⟩ = true then (1 : Nat) else 0) = 0 := by
  simp [isComputingOn, h]

theorem lockstep_preserves (s t : LockState) (hst : LockStep s t) (hinv : LockInv s) :
    LockInv t := by
  cases hst with
  | miss sl al pre post k b =>
    intro k2
    obtain ⟨h1, h2⟩ := hinv k2
    simp only [computingCount, countP_middle] at h1 h2 ⊢
    rw [midTerm_not_computing true k2 k b Phase.idle rfl] at h1
    rw [midTerm_not_computing false k2 k b Phase.idle rfl] at h2
    rw [midTerm_not_computing true k2 k b Phase.waiting rfl,
      midTerm_not_computing false k2 k b Phase.waiting rfl]
    exact ⟨h1, h2⟩
  | acquire_sync sl al pre post k hfree =>
    intro k2
    obtain ⟨h1, h2⟩ := hinv k2
    simp only [computingCount, countP_middle] at h1 h2 ⊢
    by_cases hkk : k2 = k
    · rw [hkk] at h1 h2 ⊢
      rw [midTerm_not_computing true k k true Phase.waiting rfl] at h1
      rw [midTerm_not_computing false k k true Phase.waiting rfl] at h2
      simp only [hfree, Bool.false_eq_true, if_false] at h1
      rw [midTerm_computing_same k true, midTerm_sync_on_async k k]
      simp only [eq_self_iff_true, if_true]
      exact ⟨by omega, by omega⟩
    · have hkf : (k == k2) = false := beq_eq_false_iff_ne.mpr fun h => hkk h.symm
      rw [midTerm_key_ne true k2 k true Phase.waiting hkf] at h1
      rw [midTerm_key_ne false k2 k true Phase.waiting hkf] at h2
      rw [midTerm_key_ne true k2 k true Phase.computing hkf,
        midTerm_key_ne false k2 k true Phase.computing hkf]
      simp only [hkk, if_false]
      exact ⟨h1, h2⟩
  | acquire_async sl al pre post k hfree =>
    intro k2
    obtain ⟨h1, h2⟩ := hinv k2
    simp only [computingCount, countP_middle] at h1 h2 ⊢
    by_cases hkk : k2 = k
    · rw [hkk] at h1 h2 ⊢
      rw [midTerm_not_computing true k k false Phase.waiting rfl] at h1
      rw [midTerm_not_computing false k k false Phase.waiting rfl] at h2
      simp only [hfree, Bool.false_eq_true, if_false] at h2
      rw [midTerm_computing_same k false, midTerm_async_on_sync k k]
      simp only [eq_self_iff_true, if_true]
      exact ⟨by omega, by omega⟩
    · have hkf : (k == k2) = false := beq_eq_false_iff_ne.mpr fun h => hkk h.symm
      rw [midTerm_key_ne true k2 k false Phase.waiting hkf] at h1
      rw [midTerm_key_ne false k2 k false Phase.waiting hkf] at h2
      rw [midTerm_key_ne true k2 k false Phase.computing hkf,
        midTerm_key_ne false k2 k false Phase.computing hkf]
      simp only [hkk, if_false]
      exact ⟨h1, h2⟩
  | release_sync sl al pre post k =>
    intro k2
    obtain ⟨h1, h2⟩ := hinv k2
    simp only [computingCount, countP_middle] at h1 h2 ⊢
    by_cases hkk : k2 = k
    · rw [hkk] at h1 h2 ⊢
      rw [midTerm_computing_same k true] at h1
      rw [midTerm_sync_on_async k k] at h2
      have hb : (if sl k = true then (1 : Nat) else 0) ≤ 1 := by split <;> omega
      rw [midTerm_not_computing true k k true Phase.finished rfl,
        midTerm_not_computing false k k true Phase.finished rfl]
      simp only [eq_self_iff_true, if_true, Bool.false_eq_true, if_false]
      exact ⟨by omega, by omega⟩
    · have hkf : (k == k2) = false := beq_eq_false_iff_ne.mpr fun h => hkk h.symm
      rw [midTerm_key_ne true k2 k true Phase.computing hkf] at h1
      rw [midTerm_key_ne false k2 k true Phase.computing hkf] at h2
      rw [midTerm_key_ne true k2 k true Phase.finished hkf,
        midTerm_key_ne false k2 k true Phase.finished hkf]
      simp only [hkk, if_false]
      exact ⟨h1, h2⟩
  | release_async sl al pre post k =>
    intro k2
    obtain ⟨h1, h2⟩ := hinv k2
    simp only [computingCount, countP_middle] at h1 h2 ⊢
    by_cases hkk : k2 = k
    · rw [hkk] at h1 h2 ⊢
      rw [midTerm_async_on_sync k k] at h1
      rw [midTerm_computing_same k false] at h2
      have hb : (if al k = true then (1 : Nat) else 0) ≤ 1 := by split <;> omega
      rw [midTerm_not_computing true k k false Phase.finished rfl,
        midTerm_not_computing false k k false Phase.finished rfl]
      simp only [eq_self_iff_true, if_true, Bool.false_eq_true, if_false]
      exact ⟨by omega, by omega⟩
    · have hkf : (k == k2) = false := beq_eq_false_iff_ne.mpr fun h => hkk h.symm
      rw [midTerm_key_ne true k2 k false Phase.computing hkf] at h1
      rw [midTerm_key_ne false k2 k false Phase.computing hkf] at h2
      rw [midTerm_key_ne true k2 k false Phase.finished hkf,
        midTerm_key_ne false k2 k false Phase.finished hkf]
      simp only [hkk, if_false]
      exact ⟨h1, h2⟩
/-- C9: from any starting state (all locks free, all callers idle), every
state the lock discipline can reach has at most one caller computing per
(function, key) pair on each path — concurrent callers for the same key can
only wait on that key's lock, in the registry of their own path. -/
theorem claim_C9_single_flight (s0 s : LockState) (hinit : InitialLocks s0)
    (hreach : Relation.ReflTransGen LockStep s0 s) : AtMostOneComputing s := by
  have hinv : LockInv s := by
    induction hreach with
    | refl => exact initial_lockinv s0 hinit
    | tail hr hstep ih => exact lockstep_preserves _ _ hstep ih
  intro k
  have h := hinv k
  constructor
  · exact h.1.trans (by split <;> omega)
  · exact h.2.trans (by split <;> omega)

/-- Two synchronous callers contending for the same key, before any step. -/
def lockDemoState : LockState :=
  ⟨fun _ => false, fun _ => false, [⟨"f:key", true, .idle⟩, ⟨"f:key", true, .idle⟩]⟩

/-- C9 witness: the theorem applied to the concrete two-caller starting
state, reachable from itself in zero steps. -/
theorem claim_C9_single_flight_witness : AtMostOneComputing lockDemoState :=
  claim_C9_single_flight lockDemoState lockDemoState
    ⟨fun _ => rfl, fun _ => rfl, by
      intro c hc
      simp only [lockDemoState, List.mem_cons, List.not_mem_nil, or_false] at hc
      rcases hc with rfl | rfl <;> rfl⟩
    Relation.ReflTransGen.refl
